import Mathlib

/-!
Verification of the session layer of the `vscode-slice` language server
(`src/server/src`): path resolution (`slice_config.rs`), configuration-set
parsing and recompilation (`configuration_set.rs`, `session.rs`), the
file-change orchestration and query handlers (`main.rs`), and the
position-to-definition visitor (`jump_definition.rs`).

Paths are modelled for a Unix platform: a path string is absolute iff it
starts with a slash, `Path::join` appends with a separator, and component
comparison (`PartialEq`, `Path::starts_with`) works on the list of
non-empty slash-separated components.
-/

/-- A source location, 1-based line and column (slicec `slice_file::Location`). -/
structure Location where
  line : Nat
  col : Nat
deriving DecidableEq

/-- A source span: start and end locations plus the owning file
(slicec `slice_file::Span`). -/
structure Span where
  start : Location
  stop : Location
  file : String
deriving DecidableEq

/-- Lexicographic (line, column) order on locations. -/
def Location.le (a b : Location) : Bool :=
  a.line < b.line || (a.line = b.line && a.col ≤ b.col)

/-- Modelled from the spec (§3), since `Location::is_within` lives in the
external `slicec` crate: a location is within a span iff
`start <= location <= end` under lexicographic order, inclusive on both
ends.  The owning file is not consulted. -/
def Location.isWithin (loc : Location) (span : Span) : Bool :=
  Location.le span.start loc && Location.le loc span.stop

/- ### Path model (Unix) -/

/-- A parsed file path: an absolute flag and the list of non-empty
components, the view under which Rust `Path` equality and
`Path::starts_with` operate. -/
structure SlicePath where
  absolute : Bool
  components : List String
deriving DecidableEq

/-- Splits a character list at every slash (keeping empty chunks, which
`parsePath` filters out). -/
def splitSlashAux (cur : List Char) : List Char → List (List Char)
  | [] => [cur.reverse]
  | c :: cs =>
    if c = '/' then cur.reverse :: splitSlashAux [] cs
    else splitSlashAux (c :: cur) cs

/-- Parses a path string into its component view (`Path::new`). -/
def parsePath (s : String) : SlicePath :=
  let comps := ((splitSlashAux [] s.data).map String.mk).filter (fun c => c ≠ "")
  let isAbs : Bool := match s.data with
    | '/' :: _ => true
    | _ => false
  ⟨isAbs, comps⟩

/-- Models `Path::is_absolute` on a Unix platform: the string starts with a slash. -/
def pathIsAbsolute (s : String) : Bool :=
  match s.data with
  | '/' :: _ => true
  | _ => false

/-- True iff the string ends with a slash. -/
def endsWithSlash (s : String) : Bool :=
  match s.data.reverse with
  | '/' :: _ => true
  | _ => false

/-- Models `root_path.join(path).display().to_string()` for a relative `path`:
string concatenation with a separator inserted unless the root already
ends with one (or is empty). -/
def pathJoin (root p : String) : String :=
  if endsWithSlash root || root = "" then root ++ p else root ++ "/" ++ p

/-- Models `Path::starts_with`: `f` lies at or under `k` — same absoluteness and
`k`'s components are a prefix of `f`'s. -/
def pathStartsWith (f k : SlicePath) : Bool :=
  f.absolute = k.absolute && k.components.isPrefixOf f.components

/- ### Configuration (`slice_config.rs`) -/

/-- Server-wide configuration (`slice_config::ServerConfig`). -/
structure ServerConfig where
  workspace_root_path : String
  built_in_slice_path : String
deriving DecidableEq

/-- Per-configuration-set configuration (`slice_config::SliceConfig`). -/
structure SliceConfig where
  slice_search_paths : List String
  include_built_in_slice_files : Bool
deriving DecidableEq

/-- The `impl Default for SliceConfig`: empty search paths, built-ins included. -/
def SliceConfig.default : SliceConfig :=
  { slice_search_paths := [], include_built_in_slice_files := true }

/-- The `references` field of slicec's `SliceOptions`, the only field this
server populates. -/
structure SliceOptions where
  references : List String
deriving DecidableEq

/-- Models `slice_config::compute_slice_options`: push each search path (absolute
as-is, relative joined onto the workspace root), fall back to the
workspace root when the list is empty, then append the built-in path when
requested. -/
def compute_slice_options (server_config : ServerConfig) (slice_config : SliceConfig) : SliceOptions :=
  let refs := slice_config.slice_search_paths.foldl
    (fun acc string_path =>
      let absolute_path :=
        if pathIsAbsolute string_path then string_path
        else pathJoin server_config.workspace_root_path string_path
      acc ++ [absolute_path])
    []
  let refs := if refs.isEmpty then [server_config.workspace_root_path] else refs
  let refs := if slice_config.include_built_in_slice_files
    then refs ++ [server_config.built_in_slice_path] else refs
  ⟨refs⟩

/-- Follows the spec's words (§4.1 PathResolver): map each entry
(absolute kept, relative joined with the workspace root), substitute
`[workspaceRoot]` for an empty result, append the built-ins path last when
enabled, preserving order and duplicates.  Used only to compare against
`compute_slice_options`. -/
def resolveSearchPathsSpec (server_config : ServerConfig) (slice_config : SliceConfig) : List String :=
  let mapped := slice_config.slice_search_paths.map (fun e =>
    if pathIsAbsolute e then e else pathJoin server_config.workspace_root_path e)
  let base := if mapped.isEmpty then [server_config.workspace_root_path] else mapped
  if slice_config.include_built_in_slice_files
    then base ++ [server_config.built_in_slice_path] else base

/- ### JSON values and per-set configuration parsing (`configuration_set.rs`) -/

/-- A JSON-like value (`serde_json::Value`). -/
inductive Json where
  | null
  | bool (b : Bool)
  | num (n : Int)
  | str (s : String)
  | arr (elems : List Json)
  | obj (fields : List (String × Json))

/-- Models `Value::get(key)`: field lookup on objects, `None` on anything else. -/
def Json.get (v : Json) (key : String) : Option Json :=
  match v with
  | .obj fields => fields.lookup key
  | _ => none

/-- Models `Value::as_array`. -/
def Json.asArray (v : Json) : Option (List Json) :=
  match v with
  | .arr elems => some elems
  | _ => none

/-- Models `Value::as_str`. -/
def Json.asStr (v : Json) : Option String :=
  match v with
  | .str s => some s
  | _ => none

/-- Models `Value::as_bool`. -/
def Json.asBool (v : Json) : Option Bool :=
  match v with
  | .bool b => some b
  | _ => none

/-- Models `configuration_set::parse_paths`: the `paths` field as an array of
strings, silently dropping non-string entries, empty when the field is
missing or not an array. -/
def parse_paths (value : Json) : List String :=
  (((value.get "paths").bind Json.asArray).map
    (fun dirs_array => dirs_array.filterMap Json.asStr)).getD []

/-- Models `configuration_set::parse_include_built_in`: the `addWellKnownTypes`
field as a bool, `true` when missing or not a bool. -/
def parse_include_built_in (value : Json) : Bool :=
  ((value.get "addWellKnownTypes").bind Json.asBool).getD true

/-- The `SliceConfig` built by `ConfigurationSet::from_json`. -/
def sliceConfigFromJson (value : Json) : SliceConfig :=
  { slice_search_paths := parse_paths value
    include_built_in_slice_files := parse_include_built_in value }

/- ### Diagnostics and deduplication (`main.rs` line 112) -/

/-- Diagnostic severity (only carried along; never compared by the dedup). -/
inductive Severity where
  | error
  | warning
  | allowed
deriving DecidableEq

/-- A compiler diagnostic: an optional span (spanless diagnostics are not
attributable to a file) plus severity and message. -/
structure Diagnostic where
  span : Option Span
  severity : Severity
  message : String
deriving DecidableEq

/-- The duplicate test used by `handle_file_change`:
`d1.span() == d2.span() && d1.message() == d2.message()`. -/
def sameDiag (d1 d2 : Diagnostic) : Bool :=
  d1.span == d2.span && d1.message == d2.message

/-- Inner loop of `Vec::dedup_by`: each element is compared against the
most recently retained element and dropped when `same` holds. -/
def dedupByKeep (same : α → α → Bool) : α → List α → List α
  | _, [] => []
  | last, y :: ys =>
    if same y last then dedupByKeep same last ys else y :: dedupByKeep same y ys

/-- Models `Vec::dedup_by`: removes all but the first of consecutive elements
satisfying the relation (consecutive relative to the retained sequence). -/
def dedupBy (same : α → α → Bool) : List α → List α
  | [] => []
  | x :: xs => x :: dedupByKeep same x xs

/-- The deduplication pass of `Backend::handle_file_change`
(`main.rs:112`). -/
def dedupDiagnostics (diagnostics : List Diagnostic) : List Diagnostic :=
  dedupBy sameDiag diagnostics

/-- A spanned diagnostic with message "x" used by the C2 counterexample. -/
def diagX : Diagnostic :=
  ⟨some ⟨⟨3, 1⟩, ⟨3, 10⟩, "/ws/a.slice"⟩, .error, "x"⟩

/-- Like `diagX` but with message "y": same span, different message. -/
def diagY : Diagnostic :=
  ⟨some ⟨⟨3, 1⟩, ⟨3, 10⟩, "/ws/a.slice"⟩, .error, "y"⟩

/- ### The compiled tree and the jump visitor (`jump_definition.rs`) -/

/-- The identifier of a declared entity; `raw_identifier().span()` is the
only piece of it the visitor reads. -/
structure Ident where
  span : Span
deriving DecidableEq

/-- One component of a doc-comment message: plain text, or a cross-reference
link carrying the span of its link text and the resolution result of
`linked_entity()` (`none` models the `Err(identifier)` unresolved case). -/
inductive MessageComponent where
  | text (s : String)
  | link (linked : Option Ident) (span : Span)
deriving DecidableEq

/-- A `@see` reference: resolution result of `linked_entity()` plus its span. -/
structure SeeRef where
  linked : Option Ident
  span : Span
deriving DecidableEq

/-- A `@throws` tag: its description message, the resolution result of
`thrown_type()`, and the tag's span. -/
structure ThrowsClause where
  message : List MessageComponent
  thrown : Option Ident
  span : Span
deriving DecidableEq

/-- A doc comment, with the parts `check_comment` scans. -/
structure DocComment where
  overview : Option (List MessageComponent)
  returns : List (List MessageComponent)
  params : List (List MessageComponent)
  see : List SeeRef
  throws : List ThrowsClause
deriving DecidableEq

/-- The `Types` value of a patched type reference (`concrete_type()`),
restricted to the shape `visit_type_ref` inspects: the five entity-backed
kinds carry the referenced declaration's identifier, and the remaining
kinds (collections and primitives) fall to the wildcard arm. -/
inductive ConcreteType where
  | structType (id : Ident)
  | classType (id : Ident)
  | interfaceType (id : Ident)
  | enumType (id : Ident)
  | customType (id : Ident)
  | sequenceType
  | dictionaryType
  | primitiveType
deriving DecidableEq

/-- Models `TypeRefDefinition`: patched to a concrete type, or still unpatched. -/
inductive TypeRefDefinition where
  | unpatched
  | patched (t : ConcreteType)
deriving DecidableEq

/-- A type reference: its source span and its definition. -/
structure TypeRef where
  span : Span
  definition : TypeRefDefinition
deriving DecidableEq

/-- A supertype reference (class/exception base, interface base,
operation exception specification): its span and the identifier of the
declaration `definition()` yields. -/
structure BaseRef where
  span : Span
  defIdent : Ident
deriving DecidableEq

/-- A field (`Field` in slicec; renamed since Lean already has `Field`):
its comment and the type reference of its declared type. -/
structure FieldDecl where
  comment : Option DocComment
  dataType : TypeRef
deriving DecidableEq

/-- A parameter or return member; `visit_parameter` ignores it, only its
type reference is visited. -/
structure Parameter where
  dataType : TypeRef
deriving DecidableEq

/-- An operation: comment, exception specification, parameters and return
members. -/
structure Operation where
  comment : Option DocComment
  exceptionSpecification : List BaseRef
  parameters : List Parameter
  returnMembers : List Parameter
deriving DecidableEq

/-- An enumerator: only its comment is checked. -/
structure Enumerator where
  comment : Option DocComment
deriving DecidableEq

/-- A top-level declaration of a compiled file, covering every construct
the visitor handles (modules are flattened: `visit_module` is a no-op). -/
inductive Declaration where
  | structDecl (ident : Ident) (comment : Option DocComment) (fields : List FieldDecl)
  | classDecl (ident : Ident) (comment : Option DocComment) (base : Option BaseRef) (fields : List FieldDecl)
  | exceptionDecl (ident : Ident) (comment : Option DocComment) (base : Option BaseRef) (fields : List FieldDecl)
  | interfaceDecl (ident : Ident) (comment : Option DocComment) (bases : List BaseRef) (operations : List Operation)
  | enumDecl (ident : Ident) (comment : Option DocComment) (enumerators : List Enumerator)
  | customTypeDecl (ident : Ident) (comment : Option DocComment)
  | typeAliasDecl (ident : Ident) (comment : Option DocComment) (underlying : TypeRef)
deriving DecidableEq

/-- A compiled slice file: its declarations in source order. -/
structure SliceFile where
  contents : List Declaration
deriving DecidableEq

/-- Models `JumpVisitor::check_and_set_span`: when the resolution succeeded and
the cursor is within the given span, overwrite `found_span` with the
entity's identifier span; otherwise leave the state untouched. -/
def check_and_set_span (loc : Location) (found : Option Span)
    (linked : Option Ident) (span : Span) : Option Span :=
  match linked with
  | some entity => if loc.isWithin span then some entity.span else found
  | none => found

/-- Models `JumpVisitor::check_message_links`: run `check_and_set_span` on every
link of the message (the loop never breaks, so a later containing link
overwrites an earlier one). -/
def check_message_links (loc : Location) (found : Option Span)
    (message : List MessageComponent) : Option Span :=
  message.foldl (fun st m =>
    match m with
    | .text _ => st
    | .link linked span => check_and_set_span loc st linked span) found

/-- Models `JumpVisitor::check_comment`: scan the overview, returns, params,
see and throws parts in that order (for a throws tag, its message links
first, then its thrown type). -/
def check_comment (loc : Location) (found : Option Span) : Option DocComment → Option Span
  | none => found
  | some comment =>
    let st := match comment.overview with
      | none => found
      | some overview => check_message_links loc found overview
    let st := comment.returns.foldl (check_message_links loc) st
    let st := comment.params.foldl (check_message_links loc) st
    let st := comment.see.foldl (fun s sr => check_and_set_span loc s sr.linked sr.span) st
    comment.throws.foldl (fun s th =>
      check_and_set_span loc (check_message_links loc s th.message) th.thrown th.span) st

/-- The supertype-reference loops of `visit_class` / `visit_exception` /
`visit_interface` / `visit_operation`: the first base whose span contains
the cursor sets the result and returns from the handler (skipping the
remaining bases of that handler only). -/
def visit_base_refs (loc : Location) (found : Option Span) : List BaseRef → Option Span
  | [] => found
  | base :: rest =>
    if loc.isWithin base.span then some base.defIdent.span
    else visit_base_refs loc found rest

/-- Models `JumpVisitor::visit_type_ref`: when the cursor is within the
reference's span, an unpatched definition leaves the state untouched,
while a patched one replaces it by the identifier span of a struct,
class, interface, enum or custom type — and by `None` for every other
concrete type (the wildcard arm), clearing any previous result. -/
def visit_type_ref (loc : Location) (found : Option Span) (typeref : TypeRef) : Option Span :=
  if loc.isWithin typeref.span then
    match typeref.definition with
    | .unpatched => found
    | .patched t =>
      match t with
      | .structType id => some id.span
      | .classType id => some id.span
      | .interfaceType id => some id.span
      | .enumType id => some id.span
      | .customType id => some id.span
      | .sequenceType => none
      | .dictionaryType => none
      | .primitiveType => none
  else found

/-- Modelled from the spec (§4.5): the traversal driver (`visit_with`)
lives in the external `slicec` crate; per the spec it performs a
depth-first pre-order visit of every declaration, running the handlers of
`JumpVisitor` and visiting every type reference appearing in a signature
position (field types, parameter types, return types, alias targets).
Visit of one field: its handler (`visit_field` checks the comment), then
its data type reference. -/
def visitFields (loc : Location) (found : Option Span) (fields : List FieldDecl) : Option Span :=
  fields.foldl (fun st f => visit_type_ref loc (check_comment loc st f.comment) f.dataType) found

/-- Modelled from the spec (§4.5): visit of one operation —
`visit_operation` (comment, then exception specification), then the type
references of its parameters and return members. -/
def visitOperation (loc : Location) (found : Option Span) (op : Operation) : Option Span :=
  let st := check_comment loc found op.comment
  let st := visit_base_refs loc st op.exceptionSpecification
  let st := op.parameters.foldl (fun s p => visit_type_ref loc s p.dataType) st
  op.returnMembers.foldl (fun s p => visit_type_ref loc s p.dataType) st

/-- Modelled from the spec (§4.5): depth-first visit of one declaration,
running the `JumpVisitor` handlers from `jump_definition.rs` on it and on
every contained construct. -/
def visitDeclaration (loc : Location) (found : Option Span) : Declaration → Option Span
  | .structDecl _ comment fields => visitFields loc (check_comment loc found comment) fields
  | .classDecl _ comment base fields =>
    let st := check_comment loc found comment
    let st := match base with
      | none => st
      | some b => if loc.isWithin b.span then some b.defIdent.span else st
    visitFields loc st fields
  | .exceptionDecl _ comment base fields =>
    let st := check_comment loc found comment
    let st := match base with
      | none => st
      | some b => if loc.isWithin b.span then some b.defIdent.span else st
    visitFields loc st fields
  | .interfaceDecl _ comment bases operations =>
    let st := check_comment loc found comment
    let st := visit_base_refs loc st bases
    operations.foldl (visitOperation loc) st
  | .enumDecl _ comment enumerators =>
    enumerators.foldl (fun s en => check_comment loc s en.comment) (check_comment loc found comment)
  | .customTypeDecl _ comment => check_comment loc found comment
  | .typeAliasDecl _ comment underlying => visit_type_ref loc (check_comment loc found comment) underlying

/-- Models `jump_definition::get_definition_span` for a tracked file: run the
`JumpVisitor` (initial `found_span = None`) over the whole file and
return its final `found_span`. -/
def get_definition_span (file : SliceFile) (loc : Location) : Option Span :=
  file.contents.foldl (visitDeclaration loc) none

/- ### The traversal as a flat check sequence -/

/-- One checked item of the traversal, at the granularity at which the
visitor's state is updated: a single cross-reference link (comment link,
`@see` target or `@throws` thrown type), one handler's supertype-reference
loop (which breaks at its first containing base), or a single visited
type reference. -/
inductive Check where
  | linkCheck (linked : Option Ident) (span : Span)
  | basesCheck (bases : List BaseRef)
  | typeRefCheck (typeref : TypeRef)
deriving DecidableEq

/-- Applies one check to the visitor state, exactly as the corresponding
visitor code does. -/
def applyCheck (loc : Location) (found : Option Span) : Check → Option Span
  | .linkCheck linked span => check_and_set_span loc found linked span
  | .basesCheck bases => visit_base_refs loc found bases
  | .typeRefCheck typeref => visit_type_ref loc found typeref

/-- The checks performed by `check_message_links`, in order. -/
def checksOfMessage (message : List MessageComponent) : List Check :=
  message.filterMap (fun m =>
    match m with
    | .text _ => none
    | .link linked span => some (.linkCheck linked span))

/-- The checks performed by `check_comment`, in order. -/
def checksOfComment : Option DocComment → List Check
  | none => []
  | some comment =>
    (match comment.overview with
      | none => []
      | some overview => checksOfMessage overview)
    ++ comment.returns.flatMap checksOfMessage
    ++ comment.params.flatMap checksOfMessage
    ++ comment.see.map (fun sr => .linkCheck sr.linked sr.span)
    ++ comment.throws.flatMap (fun th => checksOfMessage th.message ++ [.linkCheck th.thrown th.span])

/-- The checks performed while visiting one field. -/
def checksOfField (f : FieldDecl) : List Check :=
  checksOfComment f.comment ++ [.typeRefCheck f.dataType]

/-- The checks performed while visiting one operation. -/
def checksOfOperation (op : Operation) : List Check :=
  checksOfComment op.comment ++ [.basesCheck op.exceptionSpecification]
    ++ op.parameters.map (fun p => .typeRefCheck p.dataType)
    ++ op.returnMembers.map (fun p => .typeRefCheck p.dataType)

/-- The checks performed while visiting one declaration, in traversal
order. -/
def checksOfDeclaration : Declaration → List Check
  | .structDecl _ comment fields => checksOfComment comment ++ fields.flatMap checksOfField
  | .classDecl _ comment base fields =>
    checksOfComment comment
      ++ (match base with | none => [] | some b => [.basesCheck [b]])
      ++ fields.flatMap checksOfField
  | .exceptionDecl _ comment base fields =>
    checksOfComment comment
      ++ (match base with | none => [] | some b => [.basesCheck [b]])
      ++ fields.flatMap checksOfField
  | .interfaceDecl _ comment bases operations =>
    checksOfComment comment ++ [.basesCheck bases] ++ operations.flatMap checksOfOperation
  | .enumDecl _ comment enumerators =>
    checksOfComment comment ++ enumerators.flatMap (fun en => checksOfComment en.comment)
  | .customTypeDecl _ comment => checksOfComment comment
  | .typeAliasDecl _ comment underlying => checksOfComment comment ++ [.typeRefCheck underlying]

/-- Every check of the whole file, in traversal order. -/
def checksOfFile (file : SliceFile) : List Check :=
  file.contents.flatMap checksOfDeclaration

/- ### Write semantics of a single check, and the two resolution policies -/

/-- The identifier span produced by the `match` of `visit_type_ref`:
`Some` exactly for the five entity-backed kinds, `None` for collections
and primitives (the wildcard arm). -/
def entityIdentSpan : ConcreteType → Option Span
  | .structType id => some id.span
  | .classType id => some id.span
  | .interfaceType id => some id.span
  | .enumType id => some id.span
  | .customType id => some id.span
  | .sequenceType => none
  | .dictionaryType => none
  | .primitiveType => none

/-- The write a check performs on the visitor state for a given cursor:
`none` when the state is left untouched, `some w` when the state is
overwritten with `w` (note `some none`: a containing type reference of a
non-entity kind clears the state). -/
def checkWrite (loc : Location) : Check → Option (Option Span)
  | .linkCheck linked span =>
    match linked with
    | some entity => if loc.isWithin span then some (some entity.span) else none
    | none => none
  | .basesCheck bases =>
    (bases.find? (fun b => loc.isWithin b.span)).map (fun b => some b.defIdent.span)
  | .typeRefCheck typeref =>
    if loc.isWithin typeref.span then
      match typeref.definition with
      | .unpatched => none
      | .patched t => some (entityIdentSpan t)
    else none

/-- Follows the spec's words (§4.5): the result a check records under the
first-match policy — a containing cross-reference that resolves, the
first containing base of a supertype loop, or a containing type reference
that resolves to an entity-backed concrete type.  A containing reference
that does not resolve to a concrete entity is not a match. -/
def checkMatch (loc : Location) (c : Check) : Option Span :=
  match checkWrite loc c with
  | some (some s) => some s
  | some none => none
  | none => none

/-- Follows the spec's words (§4.5): the first containing match in
traversal order wins and resolution stops there.  Used only to compare
against `get_definition_span`. -/
def firstMatchSpec (file : SliceFile) (loc : Location) : Option Span :=
  (checksOfFile file).findSome? (checkMatch loc)

/- ### Concrete trees for the C1 and C3 scenarios -/

/-- The file path used by the concrete scenario trees. -/
def fileA : String := "/ws/a.slice"

/-- Identifier span of the entity `B` linked from a throws description. -/
def spanOfB : Span := ⟨⟨10, 1⟩, ⟨10, 6⟩, fileA⟩

/-- Identifier span of the thrown exception `E`. -/
def spanOfE : Span := ⟨⟨20, 1⟩, ⟨20, 6⟩, fileA⟩

/-- Span of the link text `{@link B}` inside the throws description. -/
def linkSpanC1 : Span := ⟨⟨5, 20⟩, ⟨5, 28⟩, fileA⟩

/-- Span of the whole `@throws E ...` tag, containing its description. -/
def tagSpanC1 : Span := ⟨⟨5, 4⟩, ⟨5, 40⟩, fileA⟩

/-- A cursor inside the link text (hence also inside the tag span). -/
def locC1 : Location := ⟨5, 22⟩

/-- A doc comment whose only part is a `@throws E` tag whose description
contains a resolvable `{@link B}`. -/
def throwsCommentC1 : DocComment :=
  ⟨none, [], [], [], [⟨[.link (some ⟨spanOfB⟩) linkSpanC1], some ⟨spanOfE⟩, tagSpanC1⟩]⟩

/-- An interface with one commented operation carrying `throwsCommentC1`. -/
def fileC1 : SliceFile :=
  ⟨[.interfaceDecl ⟨⟨⟨1, 11⟩, ⟨1, 12⟩, fileA⟩⟩ none [] [⟨some throwsCommentC1, [], [], []⟩]]⟩

/-- Identifier span of the `Length` type-alias declaration of scenario C. -/
def aliasIdentSpan : Span := ⟨⟨1, 11⟩, ⟨1, 17⟩, fileA⟩

/-- Span of the `Length` reference in the field `count: Length`. -/
def lengthRefSpan : Span := ⟨⟨4, 10⟩, ⟨4, 16⟩, fileA⟩

/-- A cursor inside the `Length` reference of the field. -/
def locC3 : Location := ⟨4, 12⟩

/-- Scenario C with `typealias Length = varuint62`.  Modelled from the
spec: §4.5 lists the concrete types a patched reference can resolve to
(struct, class, interface, enum, custom type, or a primitive/collection
type) — a type alias is not among them, so the patched definition of a
reference written through an alias is the alias's underlying concrete
type, here a primitive. -/
def fileC3 : SliceFile :=
  ⟨[.typeAliasDecl ⟨aliasIdentSpan⟩ none ⟨⟨⟨1, 20⟩, ⟨1, 29⟩, fileA⟩, .patched .primitiveType⟩,
    .structDecl ⟨⟨⟨3, 8⟩, ⟨3, 14⟩, fileA⟩⟩ none [⟨none, ⟨lengthRefSpan, .patched .primitiveType⟩⟩]]⟩

/-- Identifier span of the struct `Metrics` in the struct-backed variant. -/
def metricsIdentSpan : Span := ⟨⟨6, 8⟩, ⟨6, 15⟩, fileA⟩

/-- Scenario C variant with `typealias Length = Metrics` for a struct
`Metrics`: the field's reference patches through the alias to the struct. -/
def fileC3Struct : SliceFile :=
  ⟨[.structDecl ⟨metricsIdentSpan⟩ none [],
    .typeAliasDecl ⟨aliasIdentSpan⟩ none
      ⟨⟨⟨1, 20⟩, ⟨1, 27⟩, fileA⟩, .patched (.structType ⟨metricsIdentSpan⟩)⟩,
    .structDecl ⟨⟨⟨3, 8⟩, ⟨3, 14⟩, fileA⟩⟩ none
      [⟨none, ⟨lengthRefSpan, .patched (.structType ⟨metricsIdentSpan⟩)⟩⟩]]⟩

/- ### Configuration sets and recompilation (`configuration_set.rs`, `session.rs`) -/

/-- The result of one external-compiler invocation
(slicec `CompilationState`, restricted to the parts this layer reads:
the files map and the diagnostics; the AST travels along with the files
and is not consulted by any modelled operation). -/
structure CompilationState where
  files : List (String × SliceFile)
  diagnostics : List Diagnostic

/-- The external compiler, an out-of-scope collaborator (§6): a total
`compile_from_options` and the deterministic `Diagnostics::into_updated`
policy step (which also receives the AST and files; they do not occur in
any property proved here, so the modelled signature takes the diagnostics
and the options). -/
structure ExternalCompiler where
  run : SliceOptions → CompilationState
  intoUpdated : List Diagnostic → SliceOptions → List Diagnostic

/-- Models `configuration_set::CompilationData`, restricted as above to the
files map. -/
structure CompilationData where
  files : List (String × SliceFile)
deriving DecidableEq

/-- Models `configuration_set::ConfigurationSet`. -/
structure ConfigurationSet where
  slice_config : SliceConfig
  compilation_data : CompilationData
  unpublished_diagnostics : Option (List Diagnostic)
deriving DecidableEq

/-- Models `ConfigurationSet::trigger_compilation`: compute the options, invoke
the compiler, run the diagnostics through the policy update, replace
`compilation_data` unconditionally with the fresh result, and return the
updated diagnostics. -/
def ConfigurationSet.trigger_compilation (C : ExternalCompiler) (server_config : ServerConfig)
    (set : ConfigurationSet) : ConfigurationSet × List Diagnostic :=
  let slice_options := compute_slice_options server_config set.slice_config
  let compilation_state := C.run slice_options
  let updated_diagnostics := C.intoUpdated compilation_state.diagnostics slice_options
  ({ set with compilation_data := ⟨compilation_state.files⟩ }, updated_diagnostics)

/-- Models `ConfigurationSet::create_and_compile`: a fresh set with default
(empty) compilation data, immediately compiled, stashing the diagnostics
in `unpublished_diagnostics`. -/
def ConfigurationSet.create_and_compile (C : ExternalCompiler) (server_config : ServerConfig)
    (slice_config : SliceConfig) : ConfigurationSet :=
  let start : ConfigurationSet := ⟨slice_config, ⟨[]⟩, none⟩
  let result := ConfigurationSet.trigger_compilation C server_config start
  { result.1 with unpublished_diagnostics := some result.2 }

/-- Models `ConfigurationSet::new`: `create_and_compile` on the default
`SliceConfig`. -/
def ConfigurationSet.new (C : ExternalCompiler) (server_config : ServerConfig) : ConfigurationSet :=
  ConfigurationSet.create_and_compile C server_config SliceConfig.default

/-- Models `ConfigurationSet::from_json`. -/
def ConfigurationSet.from_json (C : ExternalCompiler) (server_config : ServerConfig)
    (value : Json) : ConfigurationSet :=
  ConfigurationSet.create_and_compile C server_config (sliceConfigFromJson value)

/-- Models `ConfigurationSet::parse_configuration_sets`. -/
def parse_configuration_sets (C : ExternalCompiler) (server_config : ServerConfig)
    (config_array : List Json) : List ConfigurationSet :=
  config_array.map (ConfigurationSet.from_json C server_config)

/-- Models `Session::update_configurations`: replace the stored collection with
the new one, substituting a single default set when it is empty. -/
def update_configurations (C : ExternalCompiler) (server_config : ServerConfig)
    (configurations : List ConfigurationSet) : List ConfigurationSet :=
  if configurations.isEmpty then [ConfigurationSet.new C server_config] else configurations

/- ### Change-triggered recompilation (`main.rs::handle_file_change`) -/

/-- The publish map of `handle_file_change` (`HashMap<Url, Vec<Diagnostic>>`),
modelled as an association list keyed by the file path (the
path-to-URI conversion of `convert_slice_path_to_uri` is out-of-scope
transport formatting and is modelled as the identity). -/
abbrev PublishMap := List (String × List Diagnostic)

/-- A `HashMap::insert`-style update: replace the value at the key, or add
the binding at the end. -/
def mapInsert (m : PublishMap) (key : String) (val : List Diagnostic) : PublishMap :=
  if m.any (fun kv => kv.1 == key) then
    m.map (fun kv => if kv.1 == key then (key, val) else kv)
  else m ++ [(key, val)]

/-- Models `publish_map.extend(keys → vec![])`: record an empty pending list for
every file of a recompiled set. -/
def extendEmpty (m : PublishMap) (keys : List String) : PublishMap :=
  keys.foldl (fun acc k => mapInsert acc k []) m

/-- Append one diagnostic to the pending list of a file. -/
def mapAppendDiag (m : PublishMap) (key : String) (d : Diagnostic) : PublishMap :=
  if m.any (fun kv => kv.1 == key) then
    m.map (fun kv => if kv.1 == key then (kv.1, kv.2 ++ [d]) else kv)
  else m ++ [(key, [d])]

/-- Modelled from the spec: `diagnostic_ext::process_diagnostics` is part
of this repository but its source is not under `src/`; per §4.4 steps 4-5
it groups the spanned diagnostics by their span's file into the per-file
pending lists (replacing the empty placeholders) and returns the spanless
ones for popup reporting, preserving order. -/
def process_diagnostics : List Diagnostic → PublishMap → PublishMap × List Diagnostic
  | [], m => (m, [])
  | d :: rest, m =>
    match d.span with
    | some sp => process_diagnostics rest (mapAppendDiag m sp.file d)
    | none =>
      let result := process_diagnostics rest m
      (result.1, d :: result.2)

/-- The scope filter of `handle_file_change` (`main.rs:89-97`): a set is
affected iff some resolved reference path equals the changed file's path
or is an ancestor of it (`Path` equality and `Path::starts_with` on the
component view). -/
def isAffected (server_config : ServerConfig) (file_path : String) (set : ConfigurationSet) : Bool :=
  (compute_slice_options server_config set.slice_config).references.any (fun f =>
    parsePath f == parsePath file_path
      || pathStartsWith (parsePath file_path) (parsePath f))

/-- What `handle_file_change` computes before sending notifications:
the updated set collection, the per-file publish map, and the spanless
diagnostics reported as popups. -/
structure FileChangeOutcome where
  sets : List ConfigurationSet
  publishMap : PublishMap
  spanless : List Diagnostic
deriving DecidableEq

/-- One iteration of the `handle_file_change` loop: an affected set is
recompiled (its diagnostics collected, its files recorded with empty
pending lists), an unaffected one is carried over untouched. -/
def handleStep (C : ExternalCompiler) (server_config : ServerConfig) (file_path : String)
    (acc : List ConfigurationSet × PublishMap × List Diagnostic) (set : ConfigurationSet) :
    List ConfigurationSet × PublishMap × List Diagnostic :=
  if isAffected server_config file_path set then
    let result := ConfigurationSet.trigger_compilation C server_config set
    (acc.1 ++ [result.1],
      extendEmpty acc.2.1 (result.1.compilation_data.files.map Prod.fst),
      acc.2.2 ++ result.2)
  else (acc.1 ++ [set], acc.2.1, acc.2.2)

/-- Models `Backend::handle_file_change` (`main.rs:82-139`), up to the
notification sends: recompile the affected sets, deduplicate the
collected diagnostics, then group them into the publish map. -/
def handle_file_change (C : ExternalCompiler) (server_config : ServerConfig)
    (sets : List ConfigurationSet) (file_path : String) : FileChangeOutcome :=
  let folded := sets.foldl (handleStep C server_config file_path) ([], [], [])
  let deduped := dedupDiagnostics folded.2.2
  let processed := process_diagnostics deduped folded.2.1
  ⟨folded.1, processed.1, processed.2⟩

/-- A compiler oracle that reports no files and no diagnostics. -/
def compilerNoop : ExternalCompiler :=
  ⟨fun _ => ⟨[], []⟩, fun diagnostics _ => diagnostics⟩

/-- A fresh default configuration set. -/
def setDefault : ConfigurationSet := ⟨SliceConfig.default, ⟨[]⟩, none⟩

/- ### Lock/notification event traces (`main.rs`) -/

/-- The observable events of one request handler, in program order:
taking and dropping the session-state lock, and the outbound editor
notifications (per-file diagnostic publishes, spanless-diagnostic popups,
log messages). -/
inductive Event where
  | acquire
  | release
  | publish (uri : String) (diagnostics : List Diagnostic)
  | popup (message : String)
  | logMsg
deriving DecidableEq

/-- True for the outbound notifications the claim is about (publishes
and popups; log messages are best-effort tracing). -/
def sendEvent : Event → Bool
  | .publish _ _ => true
  | .popup _ => true
  | _ => false

/-- True for the lock transitions. -/
def lockEvent : Event → Bool
  | .acquire => true
  | .release => true
  | _ => false

/-- True iff some send event occurs while the lock-held flag equals
`want`, scanning the trace with initial flag `held`. -/
def sendsWhile (want : Bool) : Bool → List Event → Bool
  | _, [] => false
  | _, .acquire :: es => sendsWhile want true es
  | _, .release :: es => sendsWhile want false es
  | held, e :: es => (held == want && sendEvent e) || sendsWhile want held es

/-- The event trace of `Backend::handle_file_change` (`main.rs:82-139`):
the session lock is taken at line 82 and the guard lives to the end of
the function, so the popup loop (117-124), the log message (127-132) and
the per-file publish loop (134-138) all run before the release. -/
def handle_file_change_trace (C : ExternalCompiler) (server_config : ServerConfig)
    (sets : List ConfigurationSet) (file_path : String) : List Event :=
  let outcome := handle_file_change C server_config sets file_path
  [Event.acquire]
    ++ (outcome.spanless.map (fun d => Event.popup d.message)
      ++ [Event.logMsg]
      ++ outcome.publishMap.map (fun kv => Event.publish kv.1 kv.2))
    ++ [Event.release]

/-- Modelled from the spec: `diagnostic_ext::publish_diagnostics_for_set`
is part of this repository but its source is not under `src/`; per §4.4
(full-session path) it publishes one set's diagnostics per file (with
empty lists for the set's diagnostic-free files) and reports the spanless
ones as popups. -/
def publishEventsForSet (set : ConfigurationSet) (diagnostics : List Diagnostic) : List Event :=
  let seeded : PublishMap := set.compilation_data.files.map (fun kv => (kv.1, []))
  let processed := process_diagnostics diagnostics seeded
  processed.2.map (fun d => Event.popup d.message)
    ++ processed.1.map (fun kv => Event.publish kv.1 kv.2)

/-- One iteration of the `compile_and_publish_diagnostics` loop:
recompile the set, then publish its diagnostics. -/
def compilePublishStep (C : ExternalCompiler) (server_config : ServerConfig)
    (acc : List ConfigurationSet × List Event) (set : ConfigurationSet) :
    List ConfigurationSet × List Event :=
  let result := ConfigurationSet.trigger_compilation C server_config set
  (acc.1 ++ [result.1], acc.2 ++ publishEventsForSet result.1 result.2)

/-- The event trace of `Backend::compile_and_publish_diagnostics`
(`main.rs:143-159`): lock, log, then per-set recompile-and-publish, with
the guard dropped only at the end of the function. -/
def compile_and_publish_trace (C : ExternalCompiler) (server_config : ServerConfig)
    (sets : List ConfigurationSet) : List Event :=
  let folded := sets.foldl (compilePublishStep C server_config) ([], [Event.logMsg])
  [Event.acquire] ++ folded.2 ++ [Event.release]

/-- A compiler oracle that reports a single file and no diagnostics. -/
def compilerOneFile : ExternalCompiler :=
  ⟨fun _ => ⟨[("/ws/a.slice", ⟨[]⟩)], []⟩, fun diagnostics _ => diagnostics⟩

/- ### First-matching-set queries (`main.rs::goto_definition` / `hover`) -/

/-- The set-selection loop of `Backend::goto_definition`
(`main.rs:234-255`): walk the configuration sets in stored order and
answer from the first one whose compiled files map contains the queried
path — returning immediately even when the resolution yields nothing —
or `None` when no set tracks the file. -/
def goto_definition (sets : List ConfigurationSet) (file_path : String) (loc : Location) :
    Option Span :=
  match sets with
  | [] => none
  | configuration_set :: rest =>
    match configuration_set.compilation_data.files.lookup file_path with
    | some file => get_definition_span file loc
    | none => goto_definition rest file_path loc

/-- The identical set-selection loop of `Backend::hover`
(`main.rs:269-289`), parameterized by the message renderer
(`hover::get_hover_message` is not under `src/`; by §4.5 it shares the
traversal and only the rendering differs, which no property here
depends on). -/
def hover_handler (get_hover_message : SliceFile → Location → Option String)
    (sets : List ConfigurationSet) (file_path : String) (loc : Location) : Option String :=
  match sets with
  | [] => none
  | configuration_set :: rest =>
    match configuration_set.compilation_data.files.lookup file_path with
    | some file => get_hover_message file loc
    | none => hover_handler get_hover_message rest file_path loc

/-- A file with no declarations at all. -/
def emptyFile : SliceFile := ⟨[]⟩

/-- A set tracking only `b.slice`. -/
def setOther : ConfigurationSet := ⟨SliceConfig.default, ⟨[("b.slice", emptyFile)]⟩, none⟩

/-- A set tracking `a.slice` with an empty tree. -/
def setFirst : ConfigurationSet := ⟨SliceConfig.default, ⟨[("a.slice", emptyFile)]⟩, none⟩

/-- A later set tracking `a.slice` with a tree that does resolve at the
query location. -/
def setLater : ConfigurationSet := ⟨SliceConfig.default, ⟨[("a.slice", fileC3Struct)]⟩, none⟩

/- ### Lemmas and claim theorems -/

theorem foldl_push_eq_map {α β : Type} (f : α → β) :
    ∀ (l : List α) (acc : List β),
      l.foldl (fun a s => a ++ [f s]) acc = acc ++ l.map f := by
  intro l
  induction l with
  | nil => intro acc; simp
  | cons x xs ih => intro acc; simp [List.foldl, ih]

/-- Claim C4: the resolved search-path list is each reference directory in
input order (absolute kept as-is, relative joined onto the workspace
root), `[workspaceRoot]` when the list is empty, with the built-ins path
appended last when enabled, and no deduplication or reordering — i.e.
`compute_slice_options` agrees exactly with the order-preserving,
duplicate-preserving spec-side resolver; in particular empty references
with built-ins enabled, root `/ws` and built-ins `/builtins` yield
`["/ws", "/builtins"]`. -/
theorem compute_slice_options_spec_equiv :
    (∀ (server_config : ServerConfig) (slice_config : SliceConfig),
      (compute_slice_options server_config slice_config).references
        = resolveSearchPathsSpec server_config slice_config)
    ∧ compute_slice_options ⟨"/ws", "/builtins"⟩ ⟨[], true⟩ = ⟨["/ws", "/builtins"]⟩ := by
  constructor
  · intro server_config slice_config
    simp [compute_slice_options, resolveSearchPathsSpec, foldl_push_eq_map]
  · rfl

/-- Claim C8: parsing a per-set configuration from a JSON-like value never
fails — a missing or non-array `paths` field yields the empty search-path
list, an array keeps exactly its string entries in order (non-strings
silently dropped), a missing or non-boolean `addWellKnownTypes` field
yields `true`, and on absent fields the resulting `SliceConfig` is the
default `{ [], true }`. -/
theorem parse_configuration_defaults :
    (∀ value : Json, (value.get "paths" = none
        ∨ ∃ j, value.get "paths" = some j ∧ j.asArray = none)
      → parse_paths value = [])
    ∧ (∀ (value : Json) (elems : List Json), value.get "paths" = some (.arr elems)
      → parse_paths value = elems.filterMap Json.asStr)
    ∧ (∀ value : Json, (value.get "addWellKnownTypes" = none
        ∨ ∃ j, value.get "addWellKnownTypes" = some j ∧ j.asBool = none)
      → parse_include_built_in value = true)
    ∧ (∀ (value : Json) (b : Bool), value.get "addWellKnownTypes" = some (.bool b)
      → parse_include_built_in value = b)
    ∧ (∀ value : Json, value.get "paths" = none → value.get "addWellKnownTypes" = none
      → sliceConfigFromJson value = SliceConfig.default) := by
  refine ⟨?_, ?_, ?_, ?_, ?_⟩
  · rintro value (h | ⟨j, hj, hja⟩) <;> simp [parse_paths, *]
  · intro value elems h
    simp [parse_paths, h, Json.asArray]
  · rintro value (h | ⟨j, hj, hjb⟩) <;> simp [parse_include_built_in, *]
  · intro value b h
    simp [parse_include_built_in, h, Json.asBool]
  · intro value h1 h2
    simp [sliceConfigFromJson, parse_paths, parse_include_built_in, h1, h2, SliceConfig.default]

/-- Witness for C8: a configuration object whose `paths` array mixes
strings and a number keeps exactly the strings, and a fully absent
configuration parses to the default `SliceConfig`. -/
theorem parse_configuration_defaults_witness :
    parse_paths (.obj [("paths", .arr [.str "a", .num 3, .str "b"])]) = ["a", "b"]
    ∧ sliceConfigFromJson (.obj [("other", .null)]) = SliceConfig.default := by
  constructor
  · have h := parse_configuration_defaults.2.1
      (.obj [("paths", .arr [.str "a", .num 3, .str "b"])]) [.str "a", .num 3, .str "b"]
      (by rfl)
    rw [h]
    rfl
  · exact parse_configuration_defaults.2.2.2.2 (.obj [("other", .null)]) (by rfl) (by rfl)

/-- Counterexample to C2: two diagnostics with identical span and
identical message both survive the dedup pass when they are separated by
a diagnostic with a different message — `dedup_by` only collapses
consecutive duplicates, so survival does depend on where the duplicates
appear in the collected list. -/
theorem dedup_nonadjacent_counterexample :
    dedupDiagnostics [diagX, diagY, diagX] = [diagX, diagY, diagX]
    ∧ sameDiag diagX diagX = true
    ∧ sameDiag diagX diagY = false := by
  refine ⟨?_, ?_, ?_⟩ <;> decide

theorem dedupByKeep_sublist (same : α → α → Bool) :
    ∀ (last : α) (l : List α), (dedupByKeep same last l).Sublist l := by
  intro last l
  induction l generalizing last with
  | nil => simp [dedupByKeep]
  | cons y ys ih =>
    by_cases h : same y last
    · simpa [dedupByKeep, h] using List.Sublist.cons y (ih last)
    · simpa [dedupByKeep, h] using List.Sublist.cons₂ y (ih y)

/-- Claim C2 as amended: the dedup pass collapses a duplicate (equal span
including file, equal message) only when it immediately follows the last
surviving occurrence; adjacent non-duplicates are both kept unchanged,
and the surviving diagnostics are a subsequence of the input, so
first-occurrence order is preserved and diagnostics differing in span or
message are never merged. -/
theorem dedup_adjacent_characterization :
    (∀ (d e : Diagnostic) (t : List Diagnostic), sameDiag e d = true
      → dedupDiagnostics (d :: e :: t) = dedupDiagnostics (d :: t))
    ∧ (∀ (d e : Diagnostic) (t : List Diagnostic), sameDiag e d = false
      → dedupDiagnostics (d :: e :: t) = d :: dedupDiagnostics (e :: t))
    ∧ (∀ l : List Diagnostic, (dedupDiagnostics l).Sublist l) := by
  refine ⟨?_, ?_, ?_⟩
  · intro d e t h
    simp [dedupDiagnostics, dedupBy, dedupByKeep, h]
  · intro d e t h
    simp [dedupDiagnostics, dedupBy, dedupByKeep, h]
  · intro l
    cases l with
    | nil => simp [dedupDiagnostics, dedupBy]
    | cons x xs =>
      simpa [dedupDiagnostics, dedupBy] using List.Sublist.cons₂ x (dedupByKeep_sublist sameDiag x xs)

/-- Witness for C2 (amended): an adjacent duplicate of `diagX` is
collapsed, and the adjacent non-duplicate `diagY` is kept. -/
theorem dedup_adjacent_witness :
    dedupDiagnostics [diagX, diagX, diagY] = [diagX, diagY] := by
  have h1 := dedup_adjacent_characterization.1 diagX diagX [diagY] (by decide)
  have h2 := dedup_adjacent_characterization.2.1 diagX diagY [] (by decide)
  rw [h1, h2]
  decide

theorem foldl_checks_flatMap (loc : Location) {β : Type} (f : Option Span → β → Option Span)
    (g : β → List Check) (h : ∀ s b, f s b = (g b).foldl (applyCheck loc) s) :
    ∀ (l : List β) (st : Option Span),
      l.foldl f st = (l.flatMap g).foldl (applyCheck loc) st := by
  intro l
  induction l with
  | nil => intro st; simp
  | cons b bs ih =>
    intro st
    simp only [List.foldl, List.flatMap_cons, List.foldl_append, h, ih]

theorem check_message_links_eq_checks (loc : Location) (message : List MessageComponent) :
    ∀ st, check_message_links loc st message = (checksOfMessage message).foldl (applyCheck loc) st := by
  induction message with
  | nil => intro st; rfl
  | cons m ms ih =>
    intro st
    cases m with
    | text s => simpa [check_message_links, checksOfMessage] using ih _
    | link linked span =>
      simpa [check_message_links, checksOfMessage, applyCheck] using ih _

theorem check_comment_eq_checks (loc : Location) (comment : Option DocComment) :
    ∀ st, check_comment loc st comment = (checksOfComment comment).foldl (applyCheck loc) st := by
  cases comment with
  | none => intro st; rfl
  | some c =>
    intro st
    have hmsg : ∀ (s : Option Span) (m : List MessageComponent),
        check_message_links loc s m = (checksOfMessage m).foldl (applyCheck loc) s :=
      fun s m => check_message_links_eq_checks loc m s
    have hsee : ∀ (s : Option Span) (sr : SeeRef),
        check_and_set_span loc s sr.linked sr.span
          = ([Check.linkCheck sr.linked sr.span]).foldl (applyCheck loc) s := by
      intro s sr; rfl
    have hthrows : ∀ (s : Option Span) (th : ThrowsClause),
        check_and_set_span loc (check_message_links loc s th.message) th.thrown th.span
          = (checksOfMessage th.message ++ [Check.linkCheck th.thrown th.span]).foldl
              (applyCheck loc) s := by
      intro s th
      simp [List.foldl_append, hmsg, applyCheck]
    have h0 : (match c.overview with
          | none => st
          | some overview => check_message_links loc st overview)
        = (match c.overview with
          | none => ([] : List Check)
          | some overview => checksOfMessage overview).foldl (applyCheck loc) st := by
      cases c.overview with
      | none => rfl
      | some overview => exact hmsg st overview
    simp only [check_comment]
    rw [foldl_checks_flatMap loc _ _ hthrows c.throws,
      foldl_checks_flatMap loc
        (fun (s : Option Span) (sr : SeeRef) => check_and_set_span loc s sr.linked sr.span)
        (fun sr => [Check.linkCheck sr.linked sr.span]) hsee c.see,
      foldl_checks_flatMap loc (check_message_links loc) checksOfMessage hmsg c.params,
      foldl_checks_flatMap loc (check_message_links loc) checksOfMessage hmsg c.returns,
      h0]
    simp [checksOfComment, List.foldl_append, List.map_eq_flatMap]

theorem visitFields_eq_checks (loc : Location) (fields : List FieldDecl) :
    ∀ st, visitFields loc st fields = (fields.flatMap checksOfField).foldl (applyCheck loc) st := by
  intro st
  apply foldl_checks_flatMap
  intro s f
  simp [checksOfField, List.foldl_append, check_comment_eq_checks, applyCheck]

theorem visitOperation_eq_checks (loc : Location) (op : Operation) :
    ∀ st, visitOperation loc st op = (checksOfOperation op).foldl (applyCheck loc) st := by
  intro st
  have hparam : ∀ (s : Option Span) (p : Parameter),
      visit_type_ref loc s p.dataType
        = ([Check.typeRefCheck p.dataType]).foldl (applyCheck loc) s := by
    intro s p; rfl
  simp only [visitOperation]
  rw [foldl_checks_flatMap loc
      (fun (s : Option Span) (p : Parameter) => visit_type_ref loc s p.dataType)
      (fun p => [Check.typeRefCheck p.dataType]) hparam op.returnMembers,
    foldl_checks_flatMap loc
      (fun (s : Option Span) (p : Parameter) => visit_type_ref loc s p.dataType)
      (fun p => [Check.typeRefCheck p.dataType]) hparam op.parameters]
  simp [checksOfOperation, check_comment_eq_checks, applyCheck, List.foldl_append,
    List.map_eq_flatMap]

theorem visitDeclaration_eq_checks (loc : Location) (d : Declaration) :
    ∀ st, visitDeclaration loc st d = (checksOfDeclaration d).foldl (applyCheck loc) st := by
  cases d with
  | structDecl ident comment fields =>
    intro st
    simp [visitDeclaration, checksOfDeclaration, List.foldl_append,
      check_comment_eq_checks, visitFields_eq_checks]
  | classDecl ident comment base fields =>
    intro st
    cases base with
    | none =>
      simp [visitDeclaration, checksOfDeclaration, List.foldl_append,
        check_comment_eq_checks, visitFields_eq_checks]
    | some b =>
      simp [visitDeclaration, checksOfDeclaration, List.foldl_append,
        check_comment_eq_checks, visitFields_eq_checks, applyCheck, visit_base_refs]
  | exceptionDecl ident comment base fields =>
    intro st
    cases base with
    | none =>
      simp [visitDeclaration, checksOfDeclaration, List.foldl_append,
        check_comment_eq_checks, visitFields_eq_checks]
    | some b =>
      simp [visitDeclaration, checksOfDeclaration, List.foldl_append,
        check_comment_eq_checks, visitFields_eq_checks, applyCheck, visit_base_refs]
  | interfaceDecl ident comment bases operations =>
    intro st
    simp only [visitDeclaration]
    rw [foldl_checks_flatMap loc _ _ (fun s op => visitOperation_eq_checks loc op s) operations]
    simp [checksOfDeclaration, List.foldl_append, check_comment_eq_checks, applyCheck]
  | enumDecl ident comment enumerators =>
    intro st
    simp only [visitDeclaration]
    rw [foldl_checks_flatMap loc
      (fun (s : Option Span) (en : Enumerator) => check_comment loc s en.comment)
      (fun en => checksOfComment en.comment)
      (fun s en => check_comment_eq_checks loc en.comment s) enumerators]
    simp [checksOfDeclaration, List.foldl_append, check_comment_eq_checks]
  | customTypeDecl ident comment =>
    intro st
    simp [visitDeclaration, checksOfDeclaration, check_comment_eq_checks]
  | typeAliasDecl ident comment underlying =>
    intro st
    simp [visitDeclaration, checksOfDeclaration, List.foldl_append,
      check_comment_eq_checks, applyCheck]

theorem get_definition_span_eq_checks (file : SliceFile) (loc : Location) :
    get_definition_span file loc = (checksOfFile file).foldl (applyCheck loc) none := by
  rw [get_definition_span, checksOfFile]
  exact foldl_checks_flatMap loc _ _ (fun s d => visitDeclaration_eq_checks loc d s) file.contents none

theorem applyCheck_eq_checkWrite (loc : Location) (found : Option Span) (c : Check) :
    applyCheck loc found c = (checkWrite loc c).getD found := by
  cases c with
  | linkCheck linked span =>
    cases linked with
    | none => rfl
    | some entity =>
      by_cases h : loc.isWithin span
      · simp [applyCheck, check_and_set_span, checkWrite, h]
      · simp [applyCheck, check_and_set_span, checkWrite, h]
  | basesCheck bases =>
    induction bases with
    | nil => rfl
    | cons b rest ih =>
      by_cases h : loc.isWithin b.span
      · simp [applyCheck, visit_base_refs, checkWrite, List.find?, h]
      · simpa [applyCheck, visit_base_refs, checkWrite, List.find?, h] using ih
  | typeRefCheck typeref =>
    by_cases h : loc.isWithin typeref.span
    · obtain ⟨span, definition⟩ := typeref
      cases definition with
      | unpatched => simp [applyCheck, visit_type_ref, checkWrite, h]
      | patched t => cases t <;> simp [applyCheck, visit_type_ref, checkWrite, entityIdentSpan, h]
    · simp [applyCheck, visit_type_ref, checkWrite, h]

theorem foldl_applyCheck_eq_writes (loc : Location) :
    ∀ (cs : List Check) (s : Option Span),
      cs.foldl (applyCheck loc) s
        = (cs.filterMap (checkWrite loc)).foldl (fun _ w => w) s := by
  intro cs
  induction cs with
  | nil => intro s; rfl
  | cons c rest ih =>
    intro s
    rcases hw : checkWrite loc c with _ | w
    · simp only [List.foldl, applyCheck_eq_checkWrite, hw, Option.getD,
        List.filterMap_cons, ih]
    · simp only [List.foldl, applyCheck_eq_checkWrite, hw, Option.getD,
        List.filterMap_cons, ih]

theorem foldl_overwrite_eq_getLast (ws : List (Option Span)) :
    ∀ s, ws.foldl (fun _ w => w) s = ws.getLast?.getD s := by
  induction ws with
  | nil => intro s; rfl
  | cons w rest ih =>
    intro s
    cases rest with
    | nil => rfl
    | cons y ys => simpa [List.foldl, List.getLast?_cons_cons] using ih w

/- ### Claims C1 and C3 -/

/-- Counterexample to C1: the traversal does not stop at the first
containing match.  On a tree with a `@throws E` tag whose description
contains a resolvable `{@link B}` and whose tag span contains the link
span, with the cursor inside the link text, the first containing match in
traversal order is the link to `B`, but the visitor continues and the
thrown-type check overwrites the recorded span with `E`'s identifier
span, so the final result differs from the first match. -/
theorem jump_first_match_counterexample :
    get_definition_span fileC1 locC1 = some spanOfE
    ∧ firstMatchSpec fileC1 locC1 = some spanOfB
    ∧ spanOfE ≠ spanOfB := by
  refine ⟨by decide, by decide, by decide⟩

/-- Claim C1 as amended: the traversal produces at most one result (a
single option), but does not short-circuit: every checked item is
visited, each containing match overwrites the previously recorded span
(a containing type reference of a non-entity kind clears it, an
unpatched one leaves it), so the final result is the last write of the
traversal's check sequence, not the first containing match. -/
theorem jump_last_write_characterization :
    ∀ (file : SliceFile) (loc : Location),
      get_definition_span file loc
        = ((checksOfFile file).filterMap (checkWrite loc)).getLast?.getD none := by
  intro file loc
  rw [get_definition_span_eq_checks, foldl_applyCheck_eq_writes, foldl_overwrite_eq_getLast]

/-- Counterexample to C3: in scenario C (`count: Length` with `Length` a
type alias of a primitive), the cursor inside the `Length` reference
yields no result at all — the patched reference resolves to the alias's
underlying concrete type and the wildcard arm of `visit_type_ref` maps
every non-entity kind to `None` — rather than the identifier span of the
`Length` alias declaration. -/
theorem alias_jump_counterexample :
    get_definition_span fileC3 locC3 = none
    ∧ get_definition_span fileC3 locC3 ≠ some aliasIdentSpan := by
  refine ⟨by decide, by decide⟩

/-- Claim C3 as amended: a type reference under the cursor produces an
identifier span only when patched to a struct, class, interface, enum or
custom type (and then exactly that entity's identifier span); patched
collection or primitive kinds produce `None`; and for a field typed via a
type alias the reference patches through the alias to its underlying
type, so `count: Length` with `Length = Metrics` (a struct) resolves to
the identifier span of `Metrics`, never to the `Length` alias
declaration's own identifier span. -/
theorem type_ref_resolution_kinds :
    (∀ (loc : Location) (found : Option Span) (typeref : TypeRef) (sp : Span),
      loc.isWithin typeref.span = true
      → visit_type_ref loc found typeref = some sp
      → (typeref.definition = .unpatched ∧ found = some sp)
        ∨ ∃ id : Ident, sp = id.span
          ∧ (typeref.definition = .patched (.structType id)
            ∨ typeref.definition = .patched (.classType id)
            ∨ typeref.definition = .patched (.interfaceType id)
            ∨ typeref.definition = .patched (.enumType id)
            ∨ typeref.definition = .patched (.customType id)))
    ∧ (∀ (loc : Location) (found : Option Span) (typeref : TypeRef),
      loc.isWithin typeref.span = true
      → (typeref.definition = .patched .sequenceType
        ∨ typeref.definition = .patched .dictionaryType
        ∨ typeref.definition = .patched .primitiveType)
      → visit_type_ref loc found typeref = none)
    ∧ get_definition_span fileC3Struct locC3 = some metricsIdentSpan := by
  refine ⟨?_, ?_, by decide⟩
  · intro loc found typeref sp hin hv
    obtain ⟨span, definition⟩ := typeref
    cases definition with
    | unpatched =>
      left
      simp only [visit_type_ref, hin, if_true] at hv
      exact ⟨rfl, hv⟩
    | patched t =>
      right
      cases t <;> simp only [visit_type_ref, hin, if_true] at hv <;>
        first
          | (exact ⟨_, by injection hv with h; exact h.symm, by simp⟩)
          | cases hv
  · intro loc found typeref hdef
    obtain ⟨span, definition⟩ := typeref
    rintro (h | h | h) <;> subst h <;> simp [visit_type_ref, hdef]

/-- Witness for C3 (amended): a cursor inside a type reference patched to
a primitive clears the visitor state to `None`, even when a span was
already recorded. -/
theorem type_ref_resolution_kinds_witness :
    visit_type_ref locC3 (some spanOfB) ⟨lengthRefSpan, .patched .primitiveType⟩ = none :=
  type_ref_resolution_kinds.2.1 locC3 (some spanOfB)
    ⟨lengthRefSpan, .patched .primitiveType⟩ (by decide) (Or.inr (Or.inr rfl))

/-- Claim C6: for every input list of configuration sets (including the
empty list), the session's resulting collection is non-empty, and
replacing with the empty list yields exactly one set whose `SliceConfig`
is the default — empty search-path list, include-built-ins true. -/
theorem update_configurations_nonempty :
    (∀ (C : ExternalCompiler) (server_config : ServerConfig)
      (configurations : List ConfigurationSet),
      (update_configurations C server_config configurations).isEmpty = false)
    ∧ (∀ (C : ExternalCompiler) (server_config : ServerConfig),
      update_configurations C server_config [] = [ConfigurationSet.new C server_config])
    ∧ (∀ (C : ExternalCompiler) (server_config : ServerConfig),
      (ConfigurationSet.new C server_config).slice_config = SliceConfig.default)
    ∧ SliceConfig.default = ⟨[], true⟩ := by
  refine ⟨?_, ?_, ?_, rfl⟩
  · intro C server_config configurations
    cases configurations <;> simp [update_configurations]
  · intro C server_config
    rfl
  · intro C server_config
    rfl

theorem handleStep_fold_sets (C : ExternalCompiler) (server_config : ServerConfig)
    (file_path : String) :
    ∀ (sets : List ConfigurationSet) (acc : List ConfigurationSet × PublishMap × List Diagnostic),
      (sets.foldl (handleStep C server_config file_path) acc).1
        = acc.1 ++ sets.map (fun set =>
            if isAffected server_config file_path set
            then (ConfigurationSet.trigger_compilation C server_config set).1 else set) := by
  intro sets
  induction sets with
  | nil => intro acc; simp
  | cons s rest ih =>
    intro acc
    by_cases h : isAffected server_config file_path s <;>
      simp [List.foldl, handleStep, h, ih]

theorem handleStep_fold_unaffected (C : ExternalCompiler) (server_config : ServerConfig)
    (file_path : String) :
    ∀ (sets : List ConfigurationSet) (acc : List ConfigurationSet × PublishMap × List Diagnostic),
      (∀ set ∈ sets, isAffected server_config file_path set = false)
      → sets.foldl (handleStep C server_config file_path) acc
          = (acc.1 ++ sets, acc.2.1, acc.2.2) := by
  intro sets
  induction sets with
  | nil => intro acc _; simp
  | cons s rest ih =>
    intro acc h
    have hs : isAffected server_config file_path s = false := h s (by simp)
    have hrest : ∀ set ∈ rest, isAffected server_config file_path set = false :=
      fun set hset => h set (by simp [hset])
    simp [List.foldl, handleStep, hs, ih _ hrest]

/-- Claim C7: a configuration set is recompiled on a change notification
for file `f` iff one of its resolved search paths equals `f` or is an
ancestor directory of `f` — the resulting collection replaces exactly the
affected sets by their recompilation and keeps every other set untouched —
and when no set is affected, nothing is recompiled, the publish map is
empty and no popup diagnostics are produced. -/
theorem handle_file_change_scoped :
    (∀ (C : ExternalCompiler) (server_config : ServerConfig)
      (sets : List ConfigurationSet) (file_path : String),
      (handle_file_change C server_config sets file_path).sets
        = sets.map (fun set =>
            if isAffected server_config file_path set
            then (ConfigurationSet.trigger_compilation C server_config set).1 else set))
    ∧ (∀ (C : ExternalCompiler) (server_config : ServerConfig)
      (sets : List ConfigurationSet) (file_path : String),
      (∀ set ∈ sets, isAffected server_config file_path set = false)
      → handle_file_change C server_config sets file_path = ⟨sets, [], []⟩) := by
  constructor
  · intro C server_config sets file_path
    simp [handle_file_change, handleStep_fold_sets]
  · intro C server_config sets file_path h
    simp [handle_file_change, handleStep_fold_unaffected C server_config file_path sets _ h,
      dedupDiagnostics, dedupBy, process_diagnostics]

/-- Witness for C7: editing a file outside every resolved reference path
of the only configuration set (workspace `/ws`, built-ins `/builtins`)
recompiles nothing and publishes nothing. -/
theorem handle_file_change_scoped_witness :
    handle_file_change compilerNoop ⟨"/ws", "/builtins"⟩ [setDefault] "/other/f.slice"
      = ⟨[setDefault], [], []⟩ := by
  apply handle_file_change_scoped.2
  decide

/-- Counterexample to C9: the session lock is NOT released before the
outbound notifications — on a file change affecting one set that tracks
one file, the (empty) per-file diagnostic publish is sent while the lock
is held, because the guard taken at `main.rs:82` lives until the end of
`handle_file_change`, after the publish loop. -/
theorem lock_released_counterexample :
    sendsWhile true false
      (handle_file_change_trace compilerOneFile ⟨"/ws", "/builtins"⟩ [setDefault] "/ws/a.slice")
      = true := by
  decide

theorem sendsWhile_false_of_no_lock :
    ∀ (es : List Event), (∀ e ∈ es, lockEvent e = false)
      → sendsWhile false true (es ++ [Event.release]) = false := by
  intro es
  induction es with
  | nil => intro _; rfl
  | cons e rest ih =>
    intro h
    have he : lockEvent e = false := h e (by simp)
    have hrest : ∀ x ∈ rest, lockEvent x = false := fun x hx => h x (by simp [hx])
    cases e with
    | acquire => simp [lockEvent] at he
    | release => simp [lockEvent] at he
    | publish uri diagnostics => simpa [sendsWhile] using ih hrest
    | popup message => simpa [sendsWhile] using ih hrest
    | logMsg => simpa [sendsWhile] using ih hrest

theorem sendsWhile_trace (mid : List Event) (h : ∀ e ∈ mid, lockEvent e = false) :
    sendsWhile false false ([Event.acquire] ++ mid ++ [Event.release]) = false := by
  show sendsWhile false true (mid ++ [Event.release]) = false
  exact sendsWhile_false_of_no_lock mid h

theorem compilePublishStep_fold_no_lock (C : ExternalCompiler) (server_config : ServerConfig) :
    ∀ (sets : List ConfigurationSet) (acc : List ConfigurationSet × List Event),
      (∀ e ∈ acc.2, lockEvent e = false)
      → ∀ e ∈ (sets.foldl (compilePublishStep C server_config) acc).2, lockEvent e = false := by
  intro sets
  induction sets with
  | nil => intro acc h; exact h
  | cons s rest ih =>
    intro acc h
    apply ih
    intro e he
    simp only [compilePublishStep, List.mem_append] at he
    rcases he with he | he
    · exact h e he
    · simp only [publishEventsForSet, List.mem_append, List.mem_map] at he
      rcases he with ⟨d, _, rfl⟩ | ⟨kv, _, rfl⟩ <;> rfl

/-- Claim C9 as amended: in both `handle_file_change` and
`compile_and_publish_diagnostics`, every outbound notification (diagnostic
publish or popup) is sent while the session lock is held — the guard is
dropped only at the end of the handler — so no send ever happens with the
lock released, the opposite of the claimed release-before-send. -/
theorem sends_under_lock :
    (∀ (C : ExternalCompiler) (server_config : ServerConfig)
      (sets : List ConfigurationSet) (file_path : String),
      sendsWhile false false (handle_file_change_trace C server_config sets file_path) = false)
    ∧ (∀ (C : ExternalCompiler) (server_config : ServerConfig)
      (sets : List ConfigurationSet),
      sendsWhile false false (compile_and_publish_trace C server_config sets) = false) := by
  constructor
  · intro C server_config sets file_path
    apply sendsWhile_trace
    intro e he
    simp only [List.mem_append, List.mem_map, List.mem_singleton] at he
    rcases he with (⟨d, _, rfl⟩ | rfl) | ⟨kv, _, rfl⟩ <;> rfl
  · intro C server_config sets
    apply sendsWhile_trace
    apply compilePublishStep_fold_no_lock
    intro e he
    simp only [List.mem_singleton] at he
    subst he
    rfl

/-- Claim C10: both query handlers answer from the first configuration
set (in stored order) whose compiled files map contains the queried path,
ignoring every later set — even when the first match resolves to nothing —
and answer `None` when no set tracks the file. -/
theorem first_set_wins :
    (∀ (get_hover_message : SliceFile → Location → Option String)
      (pre : List ConfigurationSet) (s0 : ConfigurationSet) (post : List ConfigurationSet)
      (file_path : String) (loc : Location) (file : SliceFile),
      (∀ set ∈ pre, set.compilation_data.files.lookup file_path = none)
      → s0.compilation_data.files.lookup file_path = some file
      → goto_definition (pre ++ s0 :: post) file_path loc = get_definition_span file loc
        ∧ hover_handler get_hover_message (pre ++ s0 :: post) file_path loc
            = get_hover_message file loc)
    ∧ (∀ (get_hover_message : SliceFile → Location → Option String)
      (sets : List ConfigurationSet) (file_path : String) (loc : Location),
      (∀ set ∈ sets, set.compilation_data.files.lookup file_path = none)
      → goto_definition sets file_path loc = none
        ∧ hover_handler get_hover_message sets file_path loc = none) := by
  constructor
  · intro get_hover_message pre
    induction pre with
    | nil =>
      intro s0 post file_path loc file _ h0
      constructor <;> simp [goto_definition, hover_handler, h0]
    | cons p rest ih =>
      intro s0 post file_path loc file hpre h0
      have hp : p.compilation_data.files.lookup file_path = none := hpre p (by simp)
      have hrest : ∀ set ∈ rest, set.compilation_data.files.lookup file_path = none :=
        fun set hset => hpre set (by simp [hset])
      have := ih s0 post file_path loc file hrest h0
      constructor <;> simp [goto_definition, hover_handler, hp, this.1, this.2]
  · intro get_hover_message sets
    induction sets with
    | nil => intro file_path loc _; exact ⟨rfl, rfl⟩
    | cons s rest ih =>
      intro file_path loc h
      have hs : s.compilation_data.files.lookup file_path = none := h s (by simp)
      have hrest : ∀ set ∈ rest, set.compilation_data.files.lookup file_path = none :=
        fun set hset => h set (by simp [hset])
      have := ih file_path loc hrest
      constructor <;> simp [goto_definition, hover_handler, hs, this.1, this.2]

/-- Witness for C10: with the first `a.slice`-tracking set holding an
empty tree, the query answers `None` even though a later set tracks the
same file with a tree that would resolve the position. -/
theorem first_set_wins_witness :
    goto_definition [setOther, setFirst, setLater] "a.slice" locC3 = none
    ∧ get_definition_span fileC3Struct locC3 = some metricsIdentSpan := by
  constructor
  · have h := (first_set_wins.1 (fun _ _ => none) [setOther] setFirst [setLater]
      "a.slice" locC3 emptyFile (by decide) (by decide)).1
    show goto_definition ([setOther] ++ setFirst :: [setLater]) "a.slice" locC3 = none
    rw [h]
    rfl
  · decide
